import Mathlib

/-!
Shallow embedding of `Challange.py`, a batch tool that reads address
records from XML, TSV and plain-text files, normalizes them into one
canonical shape, sorts them by zip code and prints them as JSON.

Strings are modelled by Lean `String`; the Python string primitives the
program uses (`strip`, `split`, `split(sep)`, `replace(" -", "")`,
`endswith`) are re-implemented below on `List Char` with Python's exact
semantics (ASCII whitespace set, empty pieces kept for `split(sep)` and
dropped for `split()`, single left-to-right non-overlapping scan for
`replace`).  Fallible code (`KeyError` / `IndexError` / `sys.exit`) is
modelled with `Option` / `Except`.
-/

namespace Challange

/-- Python's whitespace test for `str.strip()` / `str.split()` (ASCII part:
space, tab, newline, carriage return, vertical tab, form feed). -/
def pyIsSpace (c : Char) : Bool :=
  c = ' ' || c = '\t' || c = '\n' || c = '\r' || c = '\x0b' || c = '\x0c'

/-- `str.strip()` on a character list: drop whitespace from both ends. -/
def pyStripL (l : List Char) : List Char :=
  ((l.dropWhile pyIsSpace).reverse.dropWhile pyIsSpace).reverse

/-- `str.strip()`. -/
def pyStrip (s : String) : String :=
  ⟨pyStripL s.data⟩

/-- `str.split()` (no separator): split on runs of whitespace, dropping
empty pieces.  `acc` holds the current token, reversed. -/
def pySplitWsAux : List Char → List Char → List (List Char)
  | [], acc => if acc = [] then [] else [acc.reverse]
  | c :: rest, acc =>
    if pyIsSpace c then
      if acc = [] then pySplitWsAux rest []
      else acc.reverse :: pySplitWsAux rest []
    else pySplitWsAux rest (c :: acc)

/-- `str.split()` on a `String`. -/
def pySplitWs (s : String) : List String :=
  (pySplitWsAux s.data []).map fun l => ⟨l⟩

/-- `str.split(sep)` for a one-character separator: split at every
occurrence, keeping empty pieces. -/
def pySplitCharAux (sep : Char) : List Char → List Char → List (List Char)
  | [], acc => [acc.reverse]
  | c :: rest, acc =>
    if c = sep then acc.reverse :: pySplitCharAux sep rest []
    else pySplitCharAux sep rest (c :: acc)

/-- `str.split(sep)` on a `String`, one-character separator. -/
def pySplitChar (sep : Char) (s : String) : List String :=
  (pySplitCharAux sep s.data []).map fun l => ⟨l⟩

/-- `str.split("\n\n")`: split at every non-overlapping occurrence of two
consecutive newlines, scanning left to right, keeping empty pieces. -/
def pySplitBlankAux : List Char → List Char → List (List Char)
  | [], acc => [acc.reverse]
  | '\n' :: '\n' :: rest, acc => acc.reverse :: pySplitBlankAux rest []
  | c :: rest, acc => pySplitBlankAux rest (c :: acc)

/-- `str.split("\n\n")` on a `String`. -/
def pySplitBlank (s : String) : List String :=
  (pySplitBlankAux s.data []).map fun l => ⟨l⟩

/-- `str.replace(" -", "")` on a character list: one left-to-right pass
removing non-overlapping occurrences of space-dash (Python continues
scanning after each removed occurrence, so new occurrences formed by a
removal are not removed). -/
def pyRemoveSpDashL : List Char → List Char
  | [] => []
  | [c] => [c]
  | c :: d :: rest =>
    if c = ' ' ∧ d = '-' then pyRemoveSpDashL rest
    else c :: pyRemoveSpDashL (d :: rest)

/-- `str.replace(" -", "")`. -/
def pyRemoveSpDash (s : String) : String :=
  ⟨pyRemoveSpDashL s.data⟩

/-- A string with no leading or trailing whitespace: stripping it is the
identity. -/
def isTrimmed (v : String) : Prop :=
  pyStrip v = v

instance (v : String) : Decidable (isTrimmed v) := by
  unfold isTrimmed; infer_instance

/-- `str.endswith(suf)`: the last `len(suf)` characters equal `suf`. -/
def pyEndsWith (s suf : String) : Bool :=
  s.data.reverse.take suf.data.length == suf.data.reverse

/-- The canonical address record (`dict` produced by the readers):
`name` and `organization` are optional keys, the other four always set. -/
structure Address where
  name : Option String
  organization : Option String
  street : String
  city : String
  state : String
  zip : String
deriving Repr, DecidableEq

/-- Python `dict` lookup on an association list where a later binding for
the same key overwrites an earlier one (the last binding wins), returning
`none` for a missing key (`KeyError` site). -/
def pyGet (ent : List (String × String)) (k : String) : Option String :=
  (ent.reverse.find? fun p => p.1 = k).map fun p => p.2

/-- Python `" ".join(parts)`. -/
def pyJoinSp : List String → String
  | [] => ""
  | [a] => a
  | a :: rest => a ++ " " ++ pyJoinSp rest

/-- `" ".join(name_parts[:-1]) + " " + name_parts[-1]` from
`parse_address`; `none` is Python's `IndexError` on an empty list (the
call site guards against it). -/
def nameOfTokens : List String → Option String
  | [] => none
  | ps => some (pyJoinSp ps.dropLast ++ " " ++ ps.getLastD "")

/-- The `if/elif` head of `parse_address` (lines 19-23): the optional
`name` and `organization` values.  A non-blank `NAME` wins; otherwise a
present `COMPANY` is trimmed into `organization`; otherwise neither. -/
def identOf (ent : List (String × String)) : Option (Option String × Option String) :=
  match pyGet ent "NAME" with
  | some n =>
    if pyStrip n = "" then
      some (none, (pyGet ent "COMPANY").map pyStrip)
    else
      (nameOfTokens (pySplitWs n)).map fun nm => (some nm, none)
  | none => some (none, (pyGet ent "COMPANY").map pyStrip)

/-- `parse_address` (lines 8-29): name/organization disambiguation, then
the four required fields, trimmed; zip additionally has `" -"` removed.
`none` models a raised `KeyError` / `IndexError`. -/
def parse_address (ent : List (String × String)) : Option Address := do
  let ident ← identOf ent
  let street ← pyGet ent "STREET"
  let city ← pyGet ent "CITY"
  let state ← pyGet ent "STATE"
  let pc ← pyGet ent "POSTAL_CODE"
  some { name := ident.1, organization := ident.2,
         street := pyStrip street, city := pyStrip city,
         state := pyStrip state, zip := pyRemoveSpDash (pyStrip pc) }

/-- A child element of an `ENT` element: tag and text content
(`None` text for an empty element such as `<NAME></NAME>`). -/
structure XmlChild where
  tag : String
  text : Option String
deriving Repr, DecidableEq

/-- The dict comprehension of `read_xml` (line 45): keep only children
whose text is truthy (present and non-empty). -/
def entryDict (cs : List XmlChild) : List (String × String) :=
  (cs.filter fun c => c.text.getD "" ≠ "").map fun c => (c.tag, c.text.getD "")

/-- A Python `for` loop appending `f x` for each element, where any raised
exception (`f x = none`) aborts the whole loop. -/
def collectOpt (f : α → Option β) : List α → Option (List β)
  | [] => some []
  | a :: l => do
    let b ← f a
    let bs ← collectOpt f l
    some (b :: bs)

/-- `read_xml` (lines 31-48) on the already-parsed list of `ENT`
elements: build each entry dict and normalize it. -/
def read_xml (ents : List (List XmlChild)) : Option (List Address) :=
  collectOpt (fun cs => parse_address (entryDict cs)) ents

/-- One data row of a TSV file, under the header columns
`first last organization address city state zip`. -/
structure TsvRow where
  first : String
  last : String
  organization : String
  address : String
  city : String
  state : String
  zip : String
deriving Repr, DecidableEq

/-- The per-row body of `read_tsv` (lines 63-73): `organization`,
`street`, `city`, `state`, `zip` always set (trimmed); `name` set to
`f"{first.strip()} {last.strip()}"` when `first` or `last` is non-blank. -/
def tsv_row_address (row : TsvRow) : Address :=
  { name :=
      if pyStrip row.first ≠ "" ∨ pyStrip row.last ≠ "" then
        some (pyStrip row.first ++ " " ++ pyStrip row.last)
      else none,
    organization := some (pyStrip row.organization),
    street := pyStrip row.address,
    city := pyStrip row.city,
    state := pyStrip row.state,
    zip := pyStrip row.zip }

/-- `read_tsv` (lines 50-74) on the parsed rows. -/
def read_tsv (rows : List TsvRow) : List Address :=
  rows.map tsv_row_address

/-- The per-entry body of `read_txt` (lines 90-104): `lines[0]` is the
name, `lines[1]` the street, `lines[3]` splits on a comma into city and
"state zip"; `none` models a raised `IndexError`. -/
def parse_txt_entry (entry : String) : Option Address := do
  let lines := pySplitChar '\n' entry
  let l0 ← lines.get? 0
  let l1 ← lines.get? 1
  let l3 ← lines.get? 3
  let csz := pySplitChar ',' l3
  let cityPart ← csz.get? 0
  let statePart ← csz.get? 1
  let sz := pySplitWs statePart
  let st ← sz.get? 0
  let zp ← sz.get? 1
  some { name := some (pyStrip l0), organization := none,
         street := pyStrip l1, city := pyStrip cityPart,
         state := pyStrip st, zip := pyStrip zp }

/-- `read_txt` (lines 76-105) on the raw file content: split the file on
blank lines and parse every entry; any `IndexError` aborts the file. -/
def read_txt (content : String) : Option (List Address) :=
  collectOpt parse_txt_entry (pySplitBlank content)

/-- The malformed plain-text entries named by the specification: fewer
than four lines, a fourth line without a comma, or the empty entry left
by a trailing blank-line separator. -/
def malformedTxtEntry (entry : String) : Bool :=
  let lines := pySplitChar '\n' entry
  decide (lines.length < 4) ||
  (match lines.get? 3 with
   | some l4 => decide ((pySplitChar ',' l4).length < 2)
   | none => false) ||
  (entry == "")

/-- The content of one input file, abstracted per format: an XML file is
its list of `ENT` elements, a TSV file its list of data rows, a text
file its raw character content. -/
inductive FileContent
  | xml (ents : List (List XmlChild))
  | tsv (rows : List TsvRow)
  | txt (content : String)
deriving Repr, DecidableEq

/-- One command-line argument: a path and the content of the file it
names. -/
structure InputFile where
  path : String
  content : FileContent
deriving Repr, DecidableEq

/-- The per-file dispatch of `main` (lines 117-125): select the reader by
extension; an unsupported extension, or any reader failure, aborts the
run (`sys.exit(1)` / uncaught exception), modelled as `Except.error`. -/
def process_file (f : InputFile) : Except Unit (List Address) :=
  if pyEndsWith f.path ".xml" then
    match f.content with
    | .xml ents =>
      match read_xml ents with
      | some as => .ok as
      | none => .error ()
    | _ => .error ()
  else if pyEndsWith f.path ".tsv" then
    match f.content with
    | .tsv rows => .ok (read_tsv rows)
    | _ => .error ()
  else if pyEndsWith f.path ".txt" then
    match f.content with
    | .txt s =>
      match read_txt s with
      | some as => .ok as
      | none => .error ()
    | _ => .error ()
  else .error ()

/-- The accumulation loop of `main` (lines 115-125): files processed in
order, the first failure aborting the whole run before any output. -/
def processAll : List InputFile → Except Unit (List (List Address))
  | [] => .ok []
  | f :: fs => do
    let a ← process_file f
    let rest ← processAll fs
    return a :: rest

/-- Python string `<=`: lexicographic comparison by code point. -/
def charListLe : List Char → List Char → Bool
  | [], _ => true
  | _ :: _, [] => false
  | a :: as, b :: bs =>
    a.toNat < b.toNat || (a.toNat = b.toNat && charListLe as bs)

/-- The sort key comparison of `main` line 128: compare the `zip`
strings. -/
def zipLeB (a b : Address) : Bool :=
  charListLe a.zip.data b.zip.data

/-- `all_addresses.sort(key=itemgetter('zip'))` (line 128): Python's sort
is a stable sort ascending by the key; a stable sort's output is uniquely
determined by the comparison, so `List.mergeSort` models it exactly. -/
def sortByZip (l : List Address) : List Address :=
  l.mergeSort zipLeB

/-- `main` (lines 107-131): process every file, concatenate, sort by zip.
`Except.ok` carries what is printed to standard output; `Except.error`
is a run that terminates with a non-zero status and no output. -/
def main_run (files : List InputFile) : Except Unit (List Address) :=
  match processAll files with
  | .error e => .error e
  | .ok parts => .ok (sortByZip parts.flatten)

/-! ### Concrete inputs used to test the readers on specific records -/

/-- A tabular row with a person name and an empty organization column. -/
def rowC1 : TsvRow :=
  ⟨"John", "Doe", "", "123 Main St", "Anytown", "NY", "12345"⟩

/-- A tabular row whose zip contains the substring `" -"`. -/
def rowC2 : TsvRow :=
  ⟨"", "", "Acme LLC", "1 Way", "Town", "TS", "12345 -6789"⟩

/-- A markup entry whose `NAME` consists of a single token. -/
def entC3 : List (String × String) :=
  [("NAME", "John"), ("STREET", "1 St"), ("CITY", "City"), ("STATE", "NY"),
   ("POSTAL_CODE", "12345")]

/-- A markup entry with a multi-token `NAME` with messy whitespace. -/
def entC3w : List (String × String) :=
  [("NAME", "  John   Q   Public  "), ("STREET", "1 St"), ("CITY", "City"),
   ("STATE", "NY"), ("POSTAL_CODE", "12345")]

/-- A markup entry with zip `"12345 -6789"`. -/
def entC2w : List (String × String) :=
  [("STREET", "1 St"), ("CITY", "City"), ("STATE", "NY"),
   ("POSTAL_CODE", "12345 -6789")]

/-- A markup entry whose postal code ends in space-space-dash, so that
the `" -"` removal leaves a trailing space. -/
def entC9 : List (String × String) :=
  [("NAME", "Jo"), ("STREET", "1 St"), ("CITY", "City"), ("STATE", "NY"),
   ("POSTAL_CODE", "0  -")]

/-- Markup children with a whitespace-only `COMPANY` element. -/
def csC10 : List XmlChild :=
  [⟨"COMPANY", some "   "⟩, ⟨"STREET", some "1 St"⟩, ⟨"CITY", some "City"⟩,
   ⟨"STATE", some "NY"⟩, ⟨"POSTAL_CODE", some "12345"⟩]

/-- Markup children before / after the `NAME` element in the C5 witness. -/
def csC5a : List XmlChild :=
  [⟨"COMPANY", some "Acme"⟩]

/-- Markup children after the `NAME` element in the C5 witness. -/
def csC5b : List XmlChild :=
  [⟨"STREET", some "1 St"⟩, ⟨"CITY", some "City"⟩, ⟨"STATE", some "NY"⟩,
   ⟨"POSTAL_CODE", some "12345"⟩]

/-- A one-row tabular input file. -/
def filesC4 : List InputFile :=
  [⟨"a.tsv", .tsv [⟨"J", "D", "", "1 St", "City", "NY", "11111"⟩]⟩]

/-- A plain-text file whose single entry has a comma-less fourth line. -/
def fileC6 : InputFile :=
  ⟨"a.txt", .txt "John Doe\n1 St\nx\nCity ST 12345"⟩

/-- An input file with an unsupported extension. -/
def fileC7 : InputFile :=
  ⟨"report.pdf", .txt ""⟩

/-! ### General lemmas about the Python string primitives -/

theorem charListLe_refl : ∀ l : List Char, charListLe l l = true
  | [] => rfl
  | c :: rest => by simp [charListLe, charListLe_refl rest]

theorem charListLe_trans :
    ∀ a b c : List Char, charListLe a b → charListLe b c → charListLe a c
  | [], _, _, _, _ => rfl
  | _ :: _, [], _, h, _ => by simp [charListLe] at h
  | _ :: _, _ :: _, [], _, h => by simp [charListLe] at h
  | a :: as, b :: bs, c :: cs, hab, hbc => by
    simp only [charListLe, Bool.or_eq_true, Bool.and_eq_true, decide_eq_true_eq] at *
    rcases hab with hab | ⟨hab, hab'⟩ <;> rcases hbc with hbc | ⟨hbc, hbc'⟩
    · exact Or.inl (Nat.lt_trans hab hbc)
    · exact Or.inl (hbc ▸ hab)
    · exact Or.inl (hab ▸ hbc)
    · exact Or.inr ⟨hab.trans hbc, charListLe_trans as bs cs hab' hbc'⟩

theorem charListLe_total :
    ∀ a b : List Char, charListLe a b || charListLe b a
  | [], _ => by simp [charListLe]
  | _ :: _, [] => by simp [charListLe]
  | a :: as, b :: bs => by
    simp only [charListLe, Bool.or_eq_true, Bool.and_eq_true, decide_eq_true_eq]
    rcases Nat.lt_trichotomy a.toNat b.toNat with h | h | h
    · exact Or.inl (Or.inl h)
    · rcases Bool.or_eq_true _ _ |>.mp (charListLe_total as bs) with h' | h'
      · exact Or.inl (Or.inr ⟨h, h'⟩)
      · exact Or.inr (Or.inr ⟨h.symm, h'⟩)
    · exact Or.inr (Or.inl h)

theorem zipLeB_trans (a b c : Address) (hab : zipLeB a b) (hbc : zipLeB b c) :
    zipLeB a c :=
  charListLe_trans _ _ _ hab hbc

theorem zipLeB_total (a b : Address) : zipLeB a b || zipLeB b a :=
  charListLe_total _ _

theorem zipLeB_of_zip_eq {a b : Address} (h : a.zip = b.zip) : zipLeB a b = true := by
  unfold zipLeB; rw [h]; exact charListLe_refl _

/-! ### The sort: sorted output, stability -/

theorem sortByZip_sorted (l : List Address) :
    (sortByZip l).Pairwise fun a b => zipLeB a b = true := by
  have h : (List.mergeSort l zipLeB).Pairwise fun a b => zipLeB a b = true :=
    List.sorted_mergeSort (fun a b c => zipLeB_trans a b c)
      (fun a b => zipLeB_total a b) l
  exact h

theorem sortByZip_stable_filter (l : List Address) (z : String) :
    (sortByZip l).filter (fun r => r.zip == z) = l.filter (fun r => r.zip == z) := by
  have hpw : (l.filter (fun r => r.zip == z)).Pairwise fun a b => zipLeB a b = true := by
    apply List.pairwise_of_forall_mem_list
    intro a ha b hb
    have ha' := (List.mem_filter.mp ha).2
    have hb' := (List.mem_filter.mp hb).2
    exact zipLeB_of_zip_eq ((eq_of_beq ha').trans (eq_of_beq hb').symm)
  have hsub : List.Sublist (l.filter (fun r => r.zip == z)) (sortByZip l) :=
    List.sublist_mergeSort (fun a b c => zipLeB_trans a b c)
      (fun a b => zipLeB_total a b) hpw (List.filter_sublist l)
  have hsub2 : List.Sublist (l.filter (fun r => r.zip == z))
      ((sortByZip l).filter (fun r => r.zip == z)) := by
    have := hsub.filter (fun r => r.zip == z)
    simpa only [List.filter_filter, Bool.and_self] using this
  have hlen : ((sortByZip l).filter (fun r => r.zip == z)).length =
      (l.filter (fun r => r.zip == z)).length :=
    ((List.mergeSort_perm l zipLeB).filter _).length_eq
  exact (hsub2.eq_of_length hlen.symm).symm

theorem pyStripL_eq_rdrop (l : List Char) :
    pyStripL l = (l.dropWhile pyIsSpace).rdropWhile pyIsSpace := rfl

theorem dropWhile_rdropWhile_of_dropWhile_eq {p : Char → Bool} {A : List Char}
    (hA : A.dropWhile p = A) :
    (A.rdropWhile p).dropWhile p = A.rdropWhile p := by
  have hpre : (A.rdropWhile p) <+: A := by
    rw [← List.reverse_suffix]
    unfold List.rdropWhile
    rw [List.reverse_reverse]
    exact List.dropWhile_suffix p
  rcases hS : A.rdropWhile p with _ | ⟨s, S'⟩
  · rfl
  · rw [hS] at hpre
    obtain ⟨t, ht⟩ := hpre
    have hA' : A = s :: (S' ++ t) := by rw [← ht]; rfl
    have hps : p s = false := by
      by_contra hps
      rw [hA', List.dropWhile_cons, if_pos (by simpa using hps)] at hA
      have h1 := congrArg List.length hA
      have hle : (List.dropWhile p (S' ++ t)).length ≤ (S' ++ t).length :=
        (List.dropWhile_sublist p).length_le
      rw [List.length_cons] at h1
      omega
    rw [List.dropWhile_cons, if_neg (by simp [hps])]

theorem pyStripL_idem (l : List Char) : pyStripL (pyStripL l) = pyStripL l := by
  rw [pyStripL_eq_rdrop, pyStripL_eq_rdrop,
    dropWhile_rdropWhile_of_dropWhile_eq (List.dropWhile_idempotent pyIsSpace l),
    List.rdropWhile_idempotent]

theorem pyStrip_idem (s : String) : pyStrip (pyStrip s) = pyStrip s := by
  unfold pyStrip
  exact congrArg String.mk (pyStripL_idem s.data)

theorem isTrimmed_pyStrip (s : String) : isTrimmed (pyStrip s) :=
  pyStrip_idem s

theorem pyStripL_of_noWs {l : List Char} (h : ∀ c ∈ l, pyIsSpace c = false) :
    pyStripL l = l := by
  have h1 : l.dropWhile pyIsSpace = l :=
    List.dropWhile_eq_self_iff.mpr fun hl hmem => by
      simp only [h _ (l.get_mem _ hl)] at hmem
      cases hmem
  have h2 : l.reverse.dropWhile pyIsSpace = l.reverse :=
    List.dropWhile_eq_self_iff.mpr fun hl hmem => by
      simp only [h _ (List.mem_reverse.mp (l.reverse.get_mem _ hl))] at hmem
      cases hmem
  unfold pyStripL
  rw [h1, h2, List.reverse_reverse]

theorem splitWsAux_ne_nil :
    ∀ (cs acc : List Char), acc ≠ [] → pySplitWsAux cs acc ≠ []
  | [], acc, h => by simp [pySplitWsAux, h]
  | c :: rest, acc, h => by
    rw [pySplitWsAux]
    by_cases hsp : pyIsSpace c = true
    · rw [if_pos hsp, if_neg h]; simp
    · rw [if_neg hsp]; exact splitWsAux_ne_nil rest (c :: acc) (by simp)

theorem splitWsAux_nil_all_space :
    ∀ cs : List Char, pySplitWsAux cs [] = [] → ∀ c ∈ cs, pyIsSpace c = true
  | [], _, c, hmem => by cases hmem
  | c :: rest, h, d, hmem => by
    rw [pySplitWsAux] at h
    by_cases hsp : pyIsSpace c = true
    · rw [if_pos hsp, if_pos rfl] at h
      rcases List.mem_cons.mp hmem with rfl | hmem'
      · assumption
      · exact splitWsAux_nil_all_space rest h d hmem'
    · rw [if_neg hsp] at h
      exact absurd h (splitWsAux_ne_nil rest [c] (by simp))

theorem pySplitWs_ne_nil {n : String} (h : pyStrip n ≠ "") : pySplitWs n ≠ [] := by
  intro hnil
  apply h
  have haux : pySplitWsAux n.data [] = [] := by
    have := congrArg List.length hnil
    simpa [pySplitWs] using List.map_eq_nil_iff.mp hnil
  have hall := splitWsAux_nil_all_space n.data haux
  have hdrop : n.data.dropWhile pyIsSpace = [] :=
    List.dropWhile_eq_nil_iff.mpr hall
  show pyStrip n = ""
  unfold pyStrip pyStripL
  rw [hdrop]
  rfl

theorem splitWsAux_noWs :
    ∀ (cs acc : List Char), (∀ c ∈ acc, pyIsSpace c = false) →
      ∀ t ∈ pySplitWsAux cs acc, ∀ c ∈ t, pyIsSpace c = false
  | [], acc, hacc, t, hmem, c, hc => by
    rw [pySplitWsAux] at hmem
    by_cases haccnil : acc = []
    · rw [if_pos haccnil] at hmem; cases hmem
    · rw [if_neg haccnil] at hmem
      rcases List.mem_singleton.mp hmem with rfl
      exact hacc c (List.mem_reverse.mp hc)
  | d :: rest, acc, hacc, t, hmem, c, hc => by
    rw [pySplitWsAux] at hmem
    by_cases hd : pyIsSpace d = true
    · rw [if_pos hd] at hmem
      by_cases haccnil : acc = []
      · rw [if_pos haccnil] at hmem
        exact splitWsAux_noWs rest [] (by simp) t hmem c hc
      · rw [if_neg haccnil] at hmem
        rcases List.mem_cons.mp hmem with rfl | hmem'
        · exact hacc c (List.mem_reverse.mp hc)
        · exact splitWsAux_noWs rest [] (by simp) t hmem' c hc
    · rw [if_neg hd] at hmem
      refine splitWsAux_noWs rest (d :: acc) ?_ t hmem c hc
      intro e he
      rcases List.mem_cons.mp he with rfl | he'
      · simpa using hd
      · exact hacc e he'

theorem pySplitWs_noWs {s : String} {t : String} (ht : t ∈ pySplitWs s) :
    ∀ c ∈ t.data, pyIsSpace c = false := by
  unfold pySplitWs at ht
  obtain ⟨l, hl, rfl⟩ := List.mem_map.mp ht
  exact fun c hc => splitWsAux_noWs s.data [] (by simp) l hl c hc

theorem pyRemoveSpDashL_of_noSpace :
    ∀ l : List Char, (∀ c ∈ l, c ≠ ' ') → pyRemoveSpDashL l = l
  | [], _ => rfl
  | [_], _ => rfl
  | c :: d :: rest, h => by
    rw [pyRemoveSpDashL, if_neg (by
      rintro ⟨rfl, -⟩
      exact h ' ' (by simp) rfl)]
    exact congrArg _ (pyRemoveSpDashL_of_noSpace (d :: rest)
      fun x hx => h x (List.mem_cons_of_mem c hx))

theorem pyJoinSp_cons (t u : String) (l : List String) :
    pyJoinSp (t :: u :: l) = t ++ " " ++ pyJoinSp (u :: l) := rfl

theorem joinParts_eq :
    ∀ l : List String, l ≠ [] →
      pyJoinSp l.dropLast ++ " " ++ l.getLastD "" =
        if l.length = 1 then " " ++ l.headD "" else pyJoinSp l
  | [], h => absurd rfl h
  | [a], _ => by simp [pyJoinSp]
  | a :: b :: bs, _ => by
    have IH := joinParts_eq (b :: bs) (by simp)
    have hlast : (a :: b :: bs).getLastD "" = (b :: bs).getLastD "" := by
      simp [List.getLastD_cons]
    rcases bs with _ | ⟨c, cs⟩
    · simp [pyJoinSp, List.dropLast, String.append_assoc]
    · have hdl : (a :: b :: c :: cs).dropLast = a :: b :: (c :: cs).dropLast := rfl
      rw [hdl, hlast, if_neg (by simp)]
      rw [if_neg (by simp)] at IH
      have IH' : pyJoinSp (b :: (c :: cs).dropLast) ++ " " ++ (b :: c :: cs).getLastD "" =
          pyJoinSp (b :: c :: cs) := IH
      calc pyJoinSp (a :: b :: (c :: cs).dropLast) ++ " " ++ (b :: c :: cs).getLastD ""
          = a ++ " " ++ pyJoinSp (b :: (c :: cs).dropLast) ++ " " ++
              (b :: c :: cs).getLastD "" := by
            rw [pyJoinSp_cons]
        _ = a ++ " " ++ (pyJoinSp (b :: (c :: cs).dropLast) ++ " " ++
              (b :: c :: cs).getLastD "") := by
            rw [String.append_assoc (a ++ " ") (pyJoinSp (b :: (c :: cs).dropLast)) " ",
              String.append_assoc (a ++ " ")
                (pyJoinSp (b :: (c :: cs).dropLast) ++ " ") ((b :: c :: cs).getLastD "")]
        _ = a ++ " " ++ pyJoinSp (b :: c :: cs) := by rw [IH']
        _ = pyJoinSp (a :: b :: c :: cs) := (pyJoinSp_cons a b (c :: cs)).symm

theorem nameOfTokens_eq (t : String) (ts : List String) :
    nameOfTokens (t :: ts) =
      some (if ts = [] then " " ++ t else pyJoinSp (t :: ts)) := by
  have hred : nameOfTokens (t :: ts) =
      some (pyJoinSp (t :: ts).dropLast ++ " " ++ (t :: ts).getLastD "") := rfl
  rw [hred]
  have := joinParts_eq (t :: ts) (by simp)
  rcases ts with _ | ⟨u, us⟩
  · simpa using this
  · rw [if_neg (by simp)]
    rw [if_neg (by simp)] at this
    rw [this]

/-! ### Decomposition of a successful `parse_address` -/

theorem identOf_of_name {ent : List (String × String)} {n : String}
    (hN : pyGet ent "NAME" = some n) (hs : pyStrip n ≠ "") :
    identOf ent = (nameOfTokens (pySplitWs n)).map fun nm => (some nm, none) := by
  unfold identOf
  rw [hN]
  exact if_neg hs

theorem identOf_of_blank {ent : List (String × String)}
    (hblank : ∀ n, pyGet ent "NAME" = some n → pyStrip n = "") :
    identOf ent = some (none, (pyGet ent "COMPANY").map pyStrip) := by
  unfold identOf
  rcases hN : pyGet ent "NAME" with _ | n
  · rfl
  · exact if_pos (hblank n hN)

theorem parse_address_bind (ent : List (String × String)) :
    parse_address ent =
      (identOf ent).bind fun ident =>
        (pyGet ent "STREET").bind fun street =>
          (pyGet ent "CITY").bind fun city =>
            (pyGet ent "STATE").bind fun state =>
              (pyGet ent "POSTAL_CODE").bind fun pc =>
                some { name := ident.1, organization := ident.2,
                       street := pyStrip street, city := pyStrip city,
                       state := pyStrip state,
                       zip := pyRemoveSpDash (pyStrip pc) } := rfl

theorem parse_address_some {ent : List (String × String)} {a : Address}
    (h : parse_address ent = some a) :
    ∃ ident s c st pc, identOf ent = some ident ∧
      pyGet ent "STREET" = some s ∧ pyGet ent "CITY" = some c ∧
      pyGet ent "STATE" = some st ∧ pyGet ent "POSTAL_CODE" = some pc ∧
      a = { name := ident.1, organization := ident.2,
            street := pyStrip s, city := pyStrip c,
            state := pyStrip st, zip := pyRemoveSpDash (pyStrip pc) } := by
  rw [parse_address_bind] at h
  simp only [Option.bind_eq_some, Option.some.injEq] at h
  obtain ⟨ident, hident, s, hs, c, hc, st, hst, pc, hpc, ha⟩ := h
  exact ⟨ident, s, c, st, pc, hident, hs, hc, hst, hpc, ha.symm⟩

theorem parse_address_fields {ent : List (String × String)} {a : Address}
    (h : parse_address ent = some a) :
    ∃ s c st pc, pyGet ent "STREET" = some s ∧ pyGet ent "CITY" = some c ∧
      pyGet ent "STATE" = some st ∧ pyGet ent "POSTAL_CODE" = some pc ∧
      a.street = pyStrip s ∧ a.city = pyStrip c ∧ a.state = pyStrip st ∧
      a.zip = pyRemoveSpDash (pyStrip pc) := by
  obtain ⟨ident, s, c, st, pc, -, hs, hc, hst, hpc, ha⟩ := parse_address_some h
  exact ⟨s, c, st, pc, hs, hc, hst, hpc, by rw [ha], by rw [ha], by rw [ha], by rw [ha]⟩

theorem parse_address_ident {ent : List (String × String)} {a : Address}
    (h : parse_address ent = some a) :
    (∃ n, pyGet ent "NAME" = some n ∧ pyStrip n ≠ "" ∧
        a.name = nameOfTokens (pySplitWs n) ∧ a.organization = none) ∨
    ((∀ n, pyGet ent "NAME" = some n → pyStrip n = "") ∧
        a.name = none ∧ a.organization = (pyGet ent "COMPANY").map pyStrip) := by
  obtain ⟨ident, s, c, st, pc, hident, -, -, -, -, ha⟩ := parse_address_some h
  rcases hN : pyGet ent "NAME" with _ | n
  · have hblank : ∀ n, pyGet ent "NAME" = some n → pyStrip n = "" := by
      intro n hn; rw [hN] at hn; cases hn
    rw [identOf_of_blank hblank] at hident
    cases Option.some.inj hident
    exact Or.inr ⟨(fun n hn => by cases hn), (by rw [ha]), (by rw [ha])⟩
  · by_cases hstrip : pyStrip n = ""
    · have hblank : ∀ n', pyGet ent "NAME" = some n' → pyStrip n' = "" := by
        intro n' hn'; rw [hN] at hn'; cases hn'; exact hstrip
      rw [identOf_of_blank hblank] at hident
      cases Option.some.inj hident
      exact Or.inr ⟨fun n' hn' => by cases Option.some.inj hn'; exact hstrip,
        by rw [ha], by rw [ha]⟩
    · rw [identOf_of_name hN hstrip] at hident
      simp only [Option.map_eq_some'] at hident
      obtain ⟨nm, hnm, hpair⟩ := hident
      cases hpair
      refine Or.inl ⟨n, rfl, hstrip, ?_, ?_⟩
      · rw [ha, hnm]
      · rw [ha]

/-! ### Decomposition of a successful `parse_txt_entry` -/

theorem parse_txt_entry_some {e : String} {a : Address}
    (h : parse_txt_entry e = some a) :
    ∃ l0 l1 l3 cityPart statePart st zp,
      (pySplitChar '\n' e).get? 0 = some l0 ∧
      (pySplitChar '\n' e).get? 1 = some l1 ∧
      (pySplitChar '\n' e).get? 3 = some l3 ∧
      (pySplitChar ',' l3).get? 0 = some cityPart ∧
      (pySplitChar ',' l3).get? 1 = some statePart ∧
      (pySplitWs statePart).get? 0 = some st ∧
      (pySplitWs statePart).get? 1 = some zp ∧
      a = { name := some (pyStrip l0), organization := none,
            street := pyStrip l1, city := pyStrip cityPart,
            state := pyStrip st, zip := pyStrip zp } := by
  unfold parse_txt_entry at h
  simp only [bind, Option.bind_eq_some, Option.some.injEq] at h
  obtain ⟨l0, h0, l1, h1, l3, h3, cityPart, hcp, statePart, hsp, st, hst, zp, hzp, ha⟩ := h
  exact ⟨l0, l1, l3, cityPart, statePart, st, zp, h0, h1, h3, hcp, hsp, hst, hzp, ha.symm⟩

theorem parse_txt_entry_eq_none {e : String}
    (hmal : malformedTxtEntry e = true) : parse_txt_entry e = none := by
  cases hpe : parse_txt_entry e with
  | none => rfl
  | some a =>
    exfalso
    obtain ⟨l0, l1, l3, cityPart, statePart, st, zp, -, -, h3, -, hsp, -, -, -⟩ :=
      parse_txt_entry_some hpe
    unfold malformedTxtEntry at hmal
    simp only [Bool.or_eq_true] at hmal
    have hlen3 : 3 < (pySplitChar '\n' e).length := by
      rcases List.get?_eq_some.mp h3 with ⟨hl, -⟩
      exact hl
    have hlencsz : 1 < (pySplitChar ',' l3).length := by
      rcases List.get?_eq_some.mp hsp with ⟨hl, -⟩
      exact hl
    rcases hmal with (hm | hm) | hm
    · rw [decide_eq_true_iff] at hm
      omega
    · rw [h3] at hm
      rw [decide_eq_true_iff] at hm
      omega
    · have he : e = "" := by simpa using hm
      subst he
      have : (pySplitChar '\n' "").get? 3 = none := rfl
      rw [this] at h3
      cases h3

/-! ### Failure propagation through the read loops -/

theorem collectOpt_eq_none_of_mem {f : α → Option β} {l : List α} {a : α}
    (hmem : a ∈ l) (hfa : f a = none) : collectOpt f l = none := by
  induction l with
  | nil => cases hmem
  | cons b bs ih =>
    show (f b).bind _ = none
    rcases List.mem_cons.mp hmem with rfl | hmem'
    · rw [hfa]; rfl
    · cases hfb : f b
      · rfl
      · show (collectOpt f bs).bind _ = none
        rw [ih hmem']
        rfl

theorem read_txt_eq_none {s e : String} (hmem : e ∈ pySplitBlank s)
    (hmal : malformedTxtEntry e = true) : read_txt s = none :=
  collectOpt_eq_none_of_mem hmem (parse_txt_entry_eq_none hmal)

/-! ### Extension dispatch facts -/

theorem pyEndsWith_txt_not_xml {s : String} (h : pyEndsWith s ".txt" = true) :
    pyEndsWith s ".xml" = false := by
  unfold pyEndsWith at h ⊢
  have e1 : (".txt" : String).data.length = 4 := rfl
  have e2 : (".xml" : String).data.length = 4 := rfl
  have e3 : (".txt" : String).data.reverse = ['t', 'x', 't', '.'] := rfl
  have e4 : (".xml" : String).data.reverse = ['l', 'm', 'x', '.'] := rfl
  rw [e1, e3] at h
  rw [e2, e4]
  have h' : s.data.reverse.take 4 = ['t', 'x', 't', '.'] := by
    exact eq_of_beq h
  rw [h']
  decide

theorem pyEndsWith_txt_not_tsv {s : String} (h : pyEndsWith s ".txt" = true) :
    pyEndsWith s ".tsv" = false := by
  unfold pyEndsWith at h ⊢
  have e1 : (".txt" : String).data.length = 4 := rfl
  have e2 : (".tsv" : String).data.length = 4 := rfl
  have e3 : (".txt" : String).data.reverse = ['t', 'x', 't', '.'] := rfl
  have e4 : (".tsv" : String).data.reverse = ['v', 's', 't', '.'] := rfl
  rw [e1, e3] at h
  rw [e2, e4]
  have h' : s.data.reverse.take 4 = ['t', 'x', 't', '.'] := by
    exact eq_of_beq h
  rw [h']
  decide

theorem process_file_txt {f : InputFile} {s : String}
    (hext : pyEndsWith f.path ".txt" = true) (hc : f.content = .txt s) :
    process_file f =
      match read_txt s with
      | some as => .ok as
      | none => .error () := by
  unfold process_file
  rw [pyEndsWith_txt_not_xml hext, pyEndsWith_txt_not_tsv hext, hext, hc]
  simp

theorem process_file_unsupported {f : InputFile}
    (h1 : pyEndsWith f.path ".xml" = false) (h2 : pyEndsWith f.path ".tsv" = false)
    (h3 : pyEndsWith f.path ".txt" = false) :
    process_file f = .error () := by
  unfold process_file
  rw [h1, h2, h3]
  simp

/-! ### Error propagation through the driver loop -/

theorem processAll_cons (f : InputFile) (fs : List InputFile) :
    processAll (f :: fs) =
      (process_file f).bind fun a =>
        (processAll fs).bind fun rest => .ok (a :: rest) := rfl

theorem processAll_error_of_mem {files : List InputFile} {f : InputFile}
    (hmem : f ∈ files) (herr : process_file f = .error ()) :
    processAll files = .error () := by
  induction files with
  | nil => cases hmem
  | cons g gs ih =>
    rw [processAll_cons]
    rcases List.mem_cons.mp hmem with rfl | hmem'
    · rw [herr]; rfl
    · cases hg : process_file g
      · rfl
      · rw [ih hmem']; rfl

theorem main_run_error_of_mem {files : List InputFile} {f : InputFile}
    (hmem : f ∈ files) (herr : process_file f = .error ()) :
    main_run files = .error () := by
  unfold main_run
  rw [processAll_error_of_mem hmem herr]

/-! ## The claims -/

/-- Claim C1 is falsified by the tabular reader: a row with a non-blank
`first`/`last` and an empty `organization` column yields a record in
which BOTH the `name` and the `organization` fields are present (the
organization key is always set, here to `""`), contradicting "at most
one of the fields `name` and `organization` is present". -/
theorem claim_C1_counterexample :
    (tsv_row_address rowC1).name.isSome = true ∧
      (tsv_row_address rowC1).organization.isSome = true := by
  decide

/-- Claim C1, amended: for markup records at most one of `name` and
`organization` is present, and one is present exactly when the entry had
a non-blank `NAME` or any `COMPANY`; tabular records always carry
`organization` (possibly empty) and additionally carry `name` exactly
when `first` or `last` is non-blank after trimming; plain-text records
always carry `name` and never `organization`. -/
theorem claim_C1 :
    (∀ ent a, parse_address ent = some a →
      (¬(a.name.isSome = true ∧ a.organization.isSome = true)) ∧
      ((a.name.isSome = true ∨ a.organization.isSome = true) ↔
        ((∃ n, pyGet ent "NAME" = some n ∧ pyStrip n ≠ "") ∨
          (∃ c, pyGet ent "COMPANY" = some c)))) ∧
    (∀ row, (tsv_row_address row).organization.isSome = true ∧
      ((tsv_row_address row).name.isSome = true ↔
        (pyStrip row.first ≠ "" ∨ pyStrip row.last ≠ ""))) ∧
    (∀ e a, parse_txt_entry e = some a →
      a.name.isSome = true ∧ a.organization = none) := by
  refine ⟨?_, ?_, ?_⟩
  · intro ent a h
    rcases parse_address_ident h with ⟨n, hN, hstrip, hname, horg⟩ |
      ⟨hblank, hname, horg⟩
    · rcases hts : pySplitWs n with _ | ⟨t, ts⟩
      · exact absurd hts (pySplitWs_ne_nil hstrip)
      · rw [hts, nameOfTokens_eq] at hname
        refine ⟨?_, ?_, ?_⟩
        · rintro ⟨-, hOrg⟩
          rw [horg] at hOrg
          cases hOrg
        · intro
          exact Or.inl ⟨n, hN, hstrip⟩
        · intro
          rw [hname]
          exact Or.inl rfl
    · have hnot : ¬∃ n, pyGet ent "NAME" = some n ∧ pyStrip n ≠ "" := by
        rintro ⟨n, hn, hs⟩
        exact hs (hblank n hn)
      rw [hname, horg]
      rcases hC : pyGet ent "COMPANY" with _ | c
      · rw [Option.map_none']
        refine ⟨?_, ?_, ?_⟩
        · rintro ⟨h', -⟩
          cases h'
        · rintro (h' | h') <;> cases h'
        · rintro (h' | ⟨c, hc⟩)
          · exact absurd h' hnot
          · cases hc
      · rw [Option.map_some']
        refine ⟨?_, ?_, ?_⟩
        · rintro ⟨h', -⟩
          cases h'
        · intro
          exact Or.inr ⟨c, rfl⟩
        · intro
          exact Or.inr rfl
  · intro row
    refine ⟨rfl, ?_⟩
    by_cases h : pyStrip row.first ≠ "" ∨ pyStrip row.last ≠ ""
    · have hn : (tsv_row_address row).name =
          some (pyStrip row.first ++ " " ++ pyStrip row.last) := by
        show (if pyStrip row.first ≠ "" ∨ pyStrip row.last ≠ "" then _ else _) = _
        rw [if_pos h]
      rw [hn]
      exact iff_of_true rfl h
    · have hn : (tsv_row_address row).name = none := by
        show (if pyStrip row.first ≠ "" ∨ pyStrip row.last ≠ "" then _ else _) = _
        rw [if_neg h]
      rw [hn]
      exact iff_of_false (by simp) h
  · intro e a h
    obtain ⟨l0, l1, l3, cityPart, statePart, st, zp, -, -, -, -, -, -, -, ha⟩ :=
      parse_txt_entry_some h
    subst ha
    exact ⟨rfl, rfl⟩

/-- Witness for the amended claim C1: applied to the concrete markup
entry `entC3`, whose parse succeeds, the two identifying fields are not
both present. -/
theorem claim_C1_witness :
    ∃ a, parse_address entC3 = some a ∧
      ¬(a.name.isSome = true ∧ a.organization.isSome = true) := by
  have hp : parse_address entC3 =
      some { name := some " John", organization := none, street := "1 St",
             city := "City", state := "NY", zip := "12345" } := rfl
  exact ⟨_, hp, (claim_C1.1 entC3 _ hp).1⟩

/-- Claim C2 is falsified by the tabular reader: it only trims the `zip`
column, so the input zip `"12345 -6789"` reaches the final record with
its `" -"` intact. -/
theorem claim_C2_counterexample :
    (tsv_row_address rowC2).zip = "12345 -6789" ∧
      pyRemoveSpDash "12345 -6789" ≠ "12345 -6789" := by
  exact ⟨rfl, by decide⟩

/-- Claim C2, amended: only the markup reader removes `" -"` from the
trimmed postal code (one left-to-right pass: `"12345 -6789"` becomes
`"123456789"` while `"12345-6789"` is unchanged); the tabular reader
only trims its zip column, and plain-text zips are whitespace-delimited
tokens, which can never contain `" -"`. -/
theorem claim_C2 :
    (∀ ent a pc, parse_address ent = some a →
      pyGet ent "POSTAL_CODE" = some pc →
      a.zip = pyRemoveSpDash (pyStrip pc)) ∧
    (pyRemoveSpDash (pyStrip "12345 -6789") = "123456789" ∧
      pyRemoveSpDash (pyStrip "12345-6789") = "12345-6789") ∧
    (∀ row, (tsv_row_address row).zip = pyStrip row.zip) ∧
    (∀ e a, parse_txt_entry e = some a → pyRemoveSpDash a.zip = a.zip) := by
  refine ⟨?_, ⟨by decide, by decide⟩, fun row => rfl, ?_⟩
  · intro ent a pc h hpc
    obtain ⟨s, c, st, pc', -, -, -, hpc', -, -, -, hzip⟩ := parse_address_fields h
    rw [hpc] at hpc'
    cases Option.some.inj hpc'
    exact hzip
  · intro e a h
    obtain ⟨l0, l1, l3, cityPart, statePart, st, zp, -, -, -, -, -, -, hzp, ha⟩ :=
      parse_txt_entry_some h
    have hnoWs := pySplitWs_noWs (List.get?_mem hzp)
    have hstripzp : pyStrip zp = zp := by
      unfold pyStrip
      rw [pyStripL_of_noWs hnoWs]
    subst ha
    show pyRemoveSpDash (pyStrip zp) = pyStrip zp
    rw [hstripzp]
    unfold pyRemoveSpDash
    rw [pyRemoveSpDashL_of_noSpace zp.data fun c hc hceq => by
      have := hnoWs c hc
      rw [hceq] at this
      exact absurd this (by decide)]

/-- Witness for the amended claim C2: on the concrete markup entry
`entC2w` the zip is the trimmed postal code with `" -"` removed. -/
theorem claim_C2_witness :
    ∃ a, parse_address entC2w = some a ∧
      a.zip = pyRemoveSpDash (pyStrip "12345 -6789") := by
  have hp : parse_address entC2w =
      some { name := none, organization := none, street := "1 St",
             city := "City", state := "NY", zip := "123456789" } := rfl
  exact ⟨_, hp, claim_C2.1 entC2w _ "12345 -6789" hp rfl⟩

/-- Claim C3 is falsified on a single-token NAME: for `NAME = "John"`
the code computes `" ".join([]) + " " + "John" = " John"`, which carries
a leading space and is not the whitespace-collapsed rejoining `"John"`. -/
theorem claim_C3_counterexample :
    (parse_address entC3).map Address.name = some (some " John") ∧
      (" John" : String) ≠ "John" := by
  exact ⟨rfl, by decide⟩

/-- Claim C3, amended: for a markup entry with a non-blank `NAME`, if
the NAME splits into two or more whitespace-separated tokens the record
name is those tokens rejoined with single spaces, but if it is a single
token the record name is a space followed by that token. -/
theorem claim_C3 :
    ∀ ent a n, parse_address ent = some a → pyGet ent "NAME" = some n →
      pyStrip n ≠ "" →
      a.name = some (if (pySplitWs n).length = 1
        then " " ++ (pySplitWs n).headD ""
        else pyJoinSp (pySplitWs n)) := by
  intro ent a n h hN hstrip
  rcases parse_address_ident h with ⟨n', hN', hstrip', hname, -⟩ | ⟨hblank, -, -⟩
  · rw [hN] at hN'
    cases Option.some.inj hN'
    rcases hts : pySplitWs n with _ | ⟨t, ts⟩
    · exact absurd hts (pySplitWs_ne_nil hstrip)
    · rw [hts] at hname
      rw [hname, nameOfTokens_eq]
      congr 1
      rcases ts with _ | ⟨u, us⟩
      · simp
      · rw [if_neg (by simp), if_neg (by simp)]
  · exact absurd (hblank n hN) hstrip

/-- Witness for the amended claim C3: the multi-token NAME
`"  John   Q   Public  "` is rejoined with single spaces. -/
theorem claim_C3_witness :
    ∃ a, parse_address entC3w = some a ∧
      a.name = some (if (pySplitWs "  John   Q   Public  ").length = 1
        then " " ++ (pySplitWs "  John   Q   Public  ").headD ""
        else pyJoinSp (pySplitWs "  John   Q   Public  ")) := by
  have hp : parse_address entC3w =
      some { name := some "John Q Public", organization := none,
             street := "1 St", city := "City", state := "NY",
             zip := "12345" } := rfl
  exact ⟨_, hp, claim_C3 entC3w _ "  John   Q   Public  " hp rfl (by decide)⟩

/-- Claim C4: on every successful run the output is sorted ascending by
plain lexicographic (code-point) comparison of `zip`, and the sort is
stable: for each zip value, the output records with that zip are exactly
the input records with that zip in their original file-then-record
order. -/
theorem claim_C4 :
    ∀ files out, main_run files = Except.ok out →
      out.Pairwise (fun a b => zipLeB a b = true) ∧
      ∃ parts, processAll files = Except.ok parts ∧
        ∀ z, out.filter (fun r => r.zip == z) =
          parts.flatten.filter (fun r => r.zip == z) := by
  intro files out h
  unfold main_run at h
  cases hp : processAll files with
  | error e => rw [hp] at h; cases h
  | ok parts =>
    rw [hp] at h
    cases Except.ok.inj h
    exact ⟨sortByZip_sorted _, parts, rfl, fun z => sortByZip_stable_filter _ z⟩

/-- Witness for claim C4 on a concrete one-row run. -/
theorem claim_C4_witness :
    ([tsv_row_address ⟨"J", "D", "", "1 St", "City", "NY", "11111"⟩].Pairwise
        fun a b => zipLeB a b = true) ∧
      ∃ parts, processAll filesC4 = Except.ok parts ∧
        ∀ z, [tsv_row_address ⟨"J", "D", "", "1 St", "City", "NY", "11111"⟩].filter
            (fun r => r.zip == z) =
          parts.flatten.filter (fun r => r.zip == z) := by
  have hp : processAll filesC4 =
      Except.ok [[tsv_row_address ⟨"J", "D", "", "1 St", "City", "NY", "11111"⟩]] := rfl
  have h : main_run filesC4 =
      Except.ok [tsv_row_address ⟨"J", "D", "", "1 St", "City", "NY", "11111"⟩] := by
    unfold main_run
    rw [hp]
    show Except.ok (sortByZip _) = _
    unfold sortByZip
    rw [show ([[tsv_row_address ⟨"J", "D", "", "1 St", "City", "NY", "11111"⟩]] :
        List (List Address)).flatten =
      [tsv_row_address ⟨"J", "D", "", "1 St", "City", "NY", "11111"⟩] from rfl]
    rw [List.mergeSort_singleton]
  exact claim_C4 filesC4 _ h

/-- Claim C5: a markup entry containing an empty `NAME` element (text
absent, as the XML parser reports for `<NAME></NAME>`, or empty) parses
exactly like the same entry with no `NAME` element at all, because the
entry-dict comprehension drops children without truthy text. -/
theorem claim_C5 :
    ∀ (cs₁ cs₂ : List XmlChild) (t : Option String), (t = none ∨ t = some "") →
      parse_address (entryDict (cs₁ ++ ⟨"NAME", t⟩ :: cs₂)) =
        parse_address (entryDict (cs₁ ++ cs₂)) := by
  intro cs₁ cs₂ t ht
  have hdict : entryDict (cs₁ ++ ⟨"NAME", t⟩ :: cs₂) = entryDict (cs₁ ++ cs₂) := by
    unfold entryDict
    rcases ht with rfl | rfl <;> simp [List.filter_append, List.filter_cons]
  rw [hdict]

/-- Witness for claim C5 at a concrete entry. -/
theorem claim_C5_witness :
    parse_address (entryDict (csC5a ++ ⟨"NAME", none⟩ :: csC5b)) =
      parse_address (entryDict (csC5a ++ csC5b)) :=
  claim_C5 csC5a csC5b none (Or.inl rfl)

/-- Claim C6: any run that includes a `.txt` file one of whose blank-line
separated entries is malformed (fewer than four lines, a fourth line
without a comma, or the empty trailing entry) fails as a whole — the
driver returns an error and produces no output for any file. -/
theorem claim_C6 :
    ∀ (files : List InputFile) (f : InputFile) (s e : String),
      f ∈ files → pyEndsWith f.path ".txt" = true → f.content = .txt s →
      e ∈ pySplitBlank s → malformedTxtEntry e = true →
      main_run files = Except.error () := by
  intro files f s e hmem hext hc hentry hmal
  apply main_run_error_of_mem hmem
  rw [process_file_txt hext hc, read_txt_eq_none hentry hmal]

/-- Witness for claim C6: a run on one text file whose entry has a
comma-less fourth line errors out. -/
theorem claim_C6_witness : main_run [fileC6] = Except.error () :=
  claim_C6 [fileC6] fileC6 "John Doe\n1 St\nx\nCity ST 12345"
    "John Doe\n1 St\nx\nCity ST 12345"
    (List.mem_singleton.mpr rfl) (by decide) rfl (by decide) (by decide)

/-- Claim C7: a run whose argument list contains a path ending in none
of `.xml`, `.tsv`, `.txt` fails (the driver exits with an error before
printing anything to standard output). -/
theorem claim_C7 :
    ∀ (files : List InputFile) (f : InputFile), f ∈ files →
      pyEndsWith f.path ".xml" = false → pyEndsWith f.path ".tsv" = false →
      pyEndsWith f.path ".txt" = false →
      main_run files = Except.error () := by
  intro files f hmem h1 h2 h3
  exact main_run_error_of_mem hmem (process_file_unsupported h1 h2 h3)

/-- Witness for claim C7: a run on `report.pdf` errors out. -/
theorem claim_C7_witness : main_run [fileC7] = Except.error () :=
  claim_C7 [fileC7] fileC7 (List.mem_singleton.mpr rfl)
    (by decide) (by decide) (by decide)

/-- Claim C8: the tabular reader's record has `name` equal to the
trimmed `first` and trimmed `last` joined by exactly one space when at
least one of them is non-blank, and no `name` at all when both trim to
empty. -/
theorem claim_C8 :
    ∀ row : TsvRow,
      (tsv_row_address row).name =
        if pyStrip row.first = "" ∧ pyStrip row.last = "" then none
        else some (pyStrip row.first ++ " " ++ pyStrip row.last) := by
  intro row
  by_cases h : pyStrip row.first ≠ "" ∨ pyStrip row.last ≠ ""
  · have h' : ¬(pyStrip row.first = "" ∧ pyStrip row.last = "") := by tauto
    show (if pyStrip row.first ≠ "" ∨ pyStrip row.last ≠ "" then _ else _) = _
    rw [if_pos h, if_neg h']
  · have h' : pyStrip row.first = "" ∧ pyStrip row.last = "" := by tauto
    show (if pyStrip row.first ≠ "" ∨ pyStrip row.last ≠ "" then _ else _) = _
    rw [if_neg h, if_pos h']

/-- Claim C9 is falsified on the zip field of the markup reader: the
`" -"` removal runs after trimming and can leave trailing whitespace, as
for postal code `"0  -"`, which yields zip `"0 "`. -/
theorem claim_C9_counterexample :
    (parse_address entC9).map Address.zip = some "0 " ∧ ¬isTrimmed "0 " := by
  exact ⟨rfl, by decide⟩

/-- Claim C9, amended: all three readers always populate `street`,
`city`, `state` with trimmed values, and the tabular and plain-text
readers also populate `zip` trimmed; the markup reader's `zip` is the
trimmed postal code with `" -"` occurrences removed afterwards, which
can leave trailing whitespace. -/
theorem claim_C9 :
    (∀ ent a, parse_address ent = some a →
      isTrimmed a.street ∧ isTrimmed a.city ∧ isTrimmed a.state ∧
      ∃ pc, pyGet ent "POSTAL_CODE" = some pc ∧
        a.zip = pyRemoveSpDash (pyStrip pc)) ∧
    (∀ row, isTrimmed (tsv_row_address row).street ∧
      isTrimmed (tsv_row_address row).city ∧
      isTrimmed (tsv_row_address row).state ∧
      isTrimmed (tsv_row_address row).zip) ∧
    (∀ e a, parse_txt_entry e = some a →
      isTrimmed a.street ∧ isTrimmed a.city ∧ isTrimmed a.state ∧
      isTrimmed a.zip) := by
  refine ⟨?_, ?_, ?_⟩
  · intro ent a h
    obtain ⟨s, c, st, pc, -, -, -, hpc, hstreet, hcity, hstate, hzip⟩ :=
      parse_address_fields h
    exact ⟨(by rw [hstreet]; exact isTrimmed_pyStrip s),
      (by rw [hcity]; exact isTrimmed_pyStrip c),
      (by rw [hstate]; exact isTrimmed_pyStrip st), pc, hpc, hzip⟩
  · intro row
    exact ⟨isTrimmed_pyStrip _, isTrimmed_pyStrip _, isTrimmed_pyStrip _,
      isTrimmed_pyStrip _⟩
  · intro e a h
    obtain ⟨l0, l1, l3, cityPart, statePart, st, zp, -, -, -, -, -, -, -, ha⟩ :=
      parse_txt_entry_some h
    subst ha
    exact ⟨isTrimmed_pyStrip _, isTrimmed_pyStrip _, isTrimmed_pyStrip _,
      isTrimmed_pyStrip _⟩

/-- Witness for the amended claim C9 at the concrete entry `entC9`. -/
theorem claim_C9_witness :
    ∃ a, parse_address entC9 = some a ∧ isTrimmed a.street := by
  have hp : parse_address entC9 =
      some { name := some " Jo", organization := none, street := "1 St",
             city := "City", state := "NY", zip := "0 " } := rfl
  exact ⟨_, hp, (claim_C9.1 entC9 _ hp).1⟩

/-- Claim C10: a whitespace-only `COMPANY` text is truthy, so the
entry-dict comprehension keeps it, and an entry with no non-blank NAME
then gets an `organization` field equal to the empty string. -/
theorem claim_C10 :
    (∀ (tag w : String), w ≠ "" → entryDict [⟨tag, some w⟩] = [(tag, w)]) ∧
    (∀ (cs : List XmlChild) a w,
      (∀ n, pyGet (entryDict cs) "NAME" = some n → pyStrip n = "") →
      pyGet (entryDict cs) "COMPANY" = some w → pyStrip w = "" →
      parse_address (entryDict cs) = some a →
      a.organization = some "") := by
  constructor
  · intro tag w hw
    unfold entryDict
    simp [hw]
  · intro cs a w hblank hC hwstrip h
    rcases parse_address_ident h with ⟨n, hN, hstrip, -, -⟩ | ⟨-, -, horg⟩
    · exact absurd (hblank n hN) hstrip
    · rw [horg, hC, Option.map_some', hwstrip]

/-- Witness for claim C10: children with `COMPANY` text `"   "` produce
an organization field holding the empty string. -/
theorem claim_C10_witness :
    entryDict [⟨"COMPANY", some "   "⟩] = [("COMPANY", "   ")] ∧
      ∃ a, parse_address (entryDict csC10) = some a ∧
        a.organization = some "" := by
  refine ⟨claim_C10.1 "COMPANY" "   " (by decide), ?_⟩
  have hp : parse_address (entryDict csC10) =
      some { name := none, organization := some "", street := "1 St",
             city := "City", state := "NY", zip := "12345" } := rfl
  refine ⟨_, hp, claim_C10.2 csC10 _ "   " ?_ rfl (by decide) hp⟩
  intro n hn
  have hnone : pyGet (entryDict csC10) "NAME" = none := rfl
  rw [hnone] at hn
  cases hn

end Challange
